import Mathlib

/-!
Verification of `src/extraction/whatsapp_logs.py` (WhatsApp group-chat
membership-event extractor).  Strings are modelled as `List Char`; the
Python regular expressions of the source are hand-compiled into
recursive recognisers that follow Python `re` semantics (leftmost match,
lazy/greedy quantifier order) for the concrete patterns of the source.

Spanish literals: the packaged source file stores the phrases
"se unió …", "salió …", "añadió", "Se añadió a " in a doubly-encoded
form; the embedding uses the intended UTF-8 Spanish text consistently
for both the patterns and the transcript lines they are matched
against, so matching behaviour is unaffected.
-/

/-- U+200E LEFT-TO-RIGHT MARK (the only character stripped by
`.strip("\u200e")` in `hash_phone`, line 51). -/
def lrm : Char := Char.ofNat 0x200e

/-- U+200F RIGHT-TO-LEFT MARK (never mentioned by the code). -/
def rlm : Char := Char.ofNat 0x200f

/-- Python `re` whitespace class `\s` for `str` patterns (equally the
`str.strip()` / `str.isspace` whitespace set): ASCII whitespace,
the C1 separators and NEL, and the Unicode space characters —
including U+202F NARROW NO-BREAK SPACE.  (U+200E / U+200F are *not*
whitespace.) -/
def pySpace (c : Char) : Bool :=
  let n := c.toNat
  n = 0x20 || (0x9 ≤ n && n ≤ 0xd) || (0x1c ≤ n && n ≤ 0x1f) ||
  n = 0x85 || n = 0xa0 || n = 0x1680 || (0x2000 ≤ n && n ≤ 0x200a) ||
  n = 0x2028 || n = 0x2029 || n = 0x202f || n = 0x205f || n = 0x3000

/-- Python `\d` for the inputs at hand, modelled as the ASCII digits.
(Python's `\d` also matches non-ASCII decimal digits; transcripts and
the spec's scenarios only ever use ASCII digits.) -/
def pyDigit (c : Char) : Bool := c.isDigit

/-- Python `re.sub(r"\s+", "", s)` — delete every whitespace character. -/
def pySubWs (s : List Char) : List Char := s.filter (fun c => !pySpace c)

/-- Python `str.strip(chars)` — drop characters of `cs` from both ends. -/
def pyStripChars (cs : List Char) (s : List Char) : List Char :=
  ((s.dropWhile (fun c => c ∈ cs)).reverse.dropWhile (fun c => c ∈ cs)).reverse

/-- Python `str.strip()` — whitespace strip at both ends. -/
def pyStripWs (s : List Char) : List Char :=
  ((s.dropWhile pySpace).reverse.dropWhile pySpace).reverse

/-- The normalisation step shared by `hash_phone` (line 51) and the
non-anonymising identify lambda (line 91):
`re.sub(r"\s+", "", x).strip(chr 0x200e)`. -/
def normalizeId (s : List Char) : List Char := pyStripChars [lrm] (pySubWs s)

/-! ### SHA-256 (`hashlib.sha256`), on `Nat` words reduced mod 2^32 -/

/-- Truncate to a 32-bit word. -/
def w32 (n : Nat) : Nat := n % 4294967296

/-- 32-bit right rotation (argument assumed < 2^32). -/
def rotr (x n : Nat) : Nat := w32 ((x >>> n) ||| (x <<< (32 - n)))

/-- 32-bit complement. -/
def cpl (x : Nat) : Nat := x ^^^ 4294967295

def shaCh (x y z : Nat) : Nat := (x &&& y) ^^^ (cpl x &&& z)

def shaMaj (x y z : Nat) : Nat := (x &&& y) ^^^ (x &&& z) ^^^ (y &&& z)

def bSig0 (x : Nat) : Nat := rotr x 2 ^^^ rotr x 13 ^^^ rotr x 22

def bSig1 (x : Nat) : Nat := rotr x 6 ^^^ rotr x 11 ^^^ rotr x 25

def sSig0 (x : Nat) : Nat := rotr x 7 ^^^ rotr x 18 ^^^ (x >>> 3)

def sSig1 (x : Nat) : Nat := rotr x 17 ^^^ rotr x 19 ^^^ (x >>> 10)

/-- Round constants: fractional parts of the cube roots of the first 64 primes. -/
def shaK : List Nat :=
  [1116352408, 1899447441, 3049323471, 3921009573, 961987163,
   1508970993, 2453635748, 2870763221, 3624381080, 310598401,
   607225278, 1426881987, 1925078388, 2162078206, 2614888103,
   3248222580, 3835390401, 4022224774, 264347078, 604807628,
   770255983, 1249150122, 1555081692, 1996064986, 2554220882,
   2821834349, 2952996808, 3210313671, 3336571891, 3584528711,
   113926993, 338241895, 666307205, 773529912, 1294757372,
   1396182291, 1695183700, 1986661051, 2177026350, 2456956037,
   2730485921, 2820302411, 3259730800, 3345764771, 3516065817,
   3600352804, 4094571909, 275423344, 430227734, 506948616,
   659060556, 883997877, 958139571, 1322822218, 1537002063,
   1747873779, 1955562222, 2024104815, 2227730452, 2361852424,
   2428436474, 2756734187, 3204031479, 3329325298]

/-- The eight 32-bit working variables / hash state. -/
structure Hash8 where
  a : Nat
  b : Nat
  c : Nat
  d : Nat
  e : Nat
  f : Nat
  g : Nat
  hh : Nat
deriving Repr, DecidableEq

/-- Initial hash value: fractional parts of the square roots of the first 8 primes. -/
def shaH0 : Hash8 :=
  ⟨1779033703, 3144134277, 1013904242, 2773480762,
   1359893119, 2600822924, 528734635, 1541459225⟩

/-- One compression round, with `kw` the pair of round constant and
schedule word. -/
def shaRound (st : Hash8) (kw : Nat × Nat) : Hash8 :=
  let t1 := w32 (st.hh + bSig1 st.e + shaCh st.e st.f st.g + kw.1 + kw.2)
  let t2 := w32 (bSig0 st.a + shaMaj st.a st.b st.c)
  ⟨w32 (t1 + t2), st.a, st.b, st.c, w32 (st.d + t1), st.e, st.f, st.g⟩

/-- Group the 64 bytes of one block into sixteen big-endian words. -/
def words16 : List Nat → List Nat
  | b0 :: b1 :: b2 :: b3 :: rest =>
      (b0 * 16777216 + b1 * 65536 + b2 * 256 + b3) :: words16 rest
  | _ => []

/-- Extend the sixteen block words by `k` more schedule words. -/
def extendSchedule (acc : List Nat) : Nat → List Nat
  | 0 => acc
  | k + 1 =>
      let n := acc.length
      let w := w32 (sSig1 (acc.getD (n - 2) 0) + acc.getD (n - 7) 0 +
                    sSig0 (acc.getD (n - 15) 0) + acc.getD (n - 16) 0)
      extendSchedule (acc ++ [w]) k

/-- Process one 64-byte block. -/
def shaBlock (st : Hash8) (block : List Nat) : Hash8 :=
  let ws := extendSchedule (words16 block) 48
  let r := (shaK.zip ws).foldl shaRound st
  ⟨w32 (st.a + r.a), w32 (st.b + r.b), w32 (st.c + r.c), w32 (st.d + r.d),
   w32 (st.e + r.e), w32 (st.f + r.f), w32 (st.g + r.g), w32 (st.hh + r.hh)⟩

/-- The 8-byte big-endian bit-length trailer of the padding. -/
def lenBytes (bits : Nat) : List Nat :=
  (List.range 8).map (fun i => (bits >>> (8 * (7 - i))) % 256)

/-- SHA-256 message padding: `0x80`, zeros to 56 mod 64, 64-bit length. -/
def padMsg (bytes : List Nat) : List Nat :=
  let L := bytes.length
  let z := (119 - L % 64) % 64
  bytes ++ [0x80] ++ List.replicate z 0 ++ lenBytes (L * 8)

/-- Split into 64-byte blocks (fuel-driven structural recursion; the
fuel `f` only needs to exceed the number of blocks). -/
def chunks64 : Nat → List Nat → List (List Nat)
  | 0, _ => []
  | _ + 1, [] => []
  | f + 1, l => l.take 64 :: chunks64 f (l.drop 64)

/-- SHA-256 of a byte string, as eight 32-bit words. -/
def sha256Words (bytes : List Nat) : List Nat :=
  let pm := padMsg bytes
  let final := (chunks64 pm.length pm).foldl shaBlock shaH0
  [final.a, final.b, final.c, final.d, final.e, final.f, final.g, final.hh]

def hexDigit (d : Nat) : Char := Char.ofNat (if d < 10 then 48 + d else 87 + d)

/-- Lower-case hex of one 32-bit word. -/
def toHex8 (n : Nat) : List Char :=
  (List.range 8).map (fun i => hexDigit ((n >>> (4 * (7 - i))) % 16))

/-- Python `hashlib.sha256(...).hexdigest()` — 64 lower-case hex characters. -/
def sha256HexChars (bytes : List Nat) : List Char :=
  ((sha256Words bytes).map toHex8).flatten

/-- UTF-8 encoding of one character (Python `str.encode()`). -/
def utf8Char (c : Char) : List Nat :=
  let n := c.toNat
  if n < 0x80 then [n]
  else if n < 0x800 then [0xc0 + n / 0x40, 0x80 + n % 0x40]
  else if n < 0x10000 then
    [0xe0 + n / 0x1000, 0x80 + (n / 0x40) % 0x40, 0x80 + n % 0x40]
  else
    [0xf0 + n / 0x40000, 0x80 + (n / 0x1000) % 0x40,
     0x80 + (n / 0x40) % 0x40, 0x80 + n % 0x40]

/-- UTF-8 encoding of a string. -/
def utf8Encode (s : List Char) : List Nat := (s.map utf8Char).flatten

/-- Source `hash_phone` (lines 49–52): normalise, then the first 16 hex
characters of the SHA-256 digest of the UTF-8 bytes. -/
def hash_phone (s : List Char) : List Char :=
  (sha256HexChars (utf8Encode (normalizeId s))).take 16

/-- The `identify` function of `parse_chat_file` (line 91):
`hash_phone` when `hash_users` is true, bare normalisation otherwise. -/
def identify (hashUsers : Bool) (s : List Char) : List Char :=
  if hashUsers then hash_phone s else normalizeId s

/-! ### Hand-compiled recognisers for the source's regular expressions

`_USER_RE = (?:\+[\d\s]+?|~[\s\u202F].+?)` (line 40), used inside
`JOINED_RE`, `LEFT_RE`, `ADDED_BY_ADMIN_RE`, `ADDED_BY_MEMBER_RE`
(lines 43–46).  Lazy quantifiers are compiled to shortest-first scans,
greedy ones to maximal munch; in every place where a greedy quantifier
could in principle backtrack, the following literal begins with a
character the quantifier's class excludes, so maximal munch is exact. -/

/-- Optional `[\u200e]?` at the start of `JOINED_RE`/`LEFT_RE`/`ADDED_BY_MEMBER_RE`:
an optional leading U+200E.  (If it is present but consuming it fails,
the regex would retry without consuming it; the user token then has to
start with U+200E, which is neither `+` nor `~`, so that retry can
never succeed and dropping the mark is exact.) -/
def drop200e (s : List Char) : List Char :=
  match s with
  | c :: r => if c = lrm then r else s
  | [] => s

/-- Match a literal at the head, returning the remainder. -/
def matchLit (lit s : List Char) : Option (List Char) :=
  if lit.isPrefixOf s then some (s.drop lit.length) else none

/-- Continuation `\s+<lit>` (then `(.+)` when `needRest`): at least one
whitespace character, maximal whitespace munch (each literal starts
with a non-whitespace character), then the literal; returns what
follows the literal. -/
def afterWsLit (lit : List Char) (needRest : Bool) (r : List Char) : Option (List Char) :=
  match r with
  | c :: t =>
      if pySpace c then
        match matchLit lit (t.dropWhile pySpace) with
        | some r2 => if needRest && r2.isEmpty then none else some r2
        | none => none
      else none
  | [] => none

/-- Lazy scan for `[\d\s]+?` followed by continuation `k`: consume one
class character at a time, testing `k` after each (shortest first, as
Python's lazy `+?` does).  Returns the consumed characters and the
continuation's answer. -/
def scanPhone (k : List Char → Option (List Char)) :
    List Char → List Char → Option (List Char × List Char)
  | _, [] => none
  | acc, c :: rest =>
      if pyDigit c || pySpace c then
        let acc' := acc ++ [c]
        match k rest with
        | some r => some (acc', r)
        | none => scanPhone k acc' rest
      else none

/-- Lazy scan for `.+?` followed by continuation `k` (transcript lines
contain no newline, so `.` is any character). -/
def scanAlias (k : List Char → Option (List Char)) :
    List Char → List Char → Option (List Char × List Char)
  | _, [] => none
  | acc, c :: rest =>
      let acc' := acc ++ [c]
      match k rest with
      | some r => some (acc', r)
      | none => scanAlias k acc' rest

/-- Pattern `(_USER_RE)` followed by continuation `k`: a phone
(`\+[\d\s]+?`) or an alias (`~[\s\u202f].+?`, the class being exactly
`\s`).  Returns the captured user token and the continuation's answer. -/
def matchUser (k : List Char → Option (List Char)) (s : List Char) :
    Option (List Char × List Char) :=
  match s with
  | [] => none
  | c :: rest =>
      if c = '+' then (scanPhone k [] rest).map (fun p => ('+' :: p.1, p.2))
      else if c = '~' then
        match rest with
        | [] => none
        | c2 :: rest2 =>
            if pySpace c2 then
              (scanAlias k [] rest2).map (fun p => ('~' :: c2 :: p.1, p.2))
            else none
      else none

def joinedLit : List Char := "se unió con el enlace del grupo".data

def leftLit : List Char := "salió del grupo".data

def adminLit : List Char := "Se añadió a ".data

def memberLit : List Char := "añadió a ".data

/-- Source `JOINED_RE.match(message)` (line 43): the captured user token. -/
def joinedMatch (msg : List Char) : Option (List Char) :=
  (matchUser (afterWsLit joinedLit false) (drop200e msg)).map (·.1)

/-- Source `LEFT_RE.match(message)` (line 44): the captured user token. -/
def leftMatch (msg : List Char) : Option (List Char) :=
  (matchUser (afterWsLit leftLit false) (drop200e msg)).map (·.1)

/-- Tail `\s*\.?\s*$` of `ADDED_BY_ADMIN_RE`: optional whitespace, at
most one period, optional whitespace, end of string. -/
def adminTail (r : List Char) : Bool :=
  match r.dropWhile pySpace with
  | [] => true
  | '.' :: r2 => (r2.dropWhile pySpace).isEmpty
  | _ => false

/-- Source `ADDED_BY_ADMIN_RE.match(message)` (line 45):
`^Se añadió a (_USER_RE)\s*\.?\s*$`, returning the captured user. -/
def adminMatch (msg : List Char) : Option (List Char) :=
  match matchLit adminLit msg with
  | some rest =>
      (matchUser (fun r => if adminTail r then some [] else none) rest).map (·.1)
  | none => none

/-- Source `ADDED_BY_MEMBER_RE.match(message)` (line 46):
`^[\u200e]?(_USER_RE)\s+añadió a (.+)`, returning the captured actor
and the greedy `(.+)` capture (everything after the literal, which
must be non-empty). -/
def memberMatch (msg : List Char) : Option (List Char × List Char) :=
  matchUser (afterWsLit memberLit true) (drop200e msg)

/-! ### `parse_added_users` (lines 64–75) -/

/-- Python `text.rstrip(".")` — remove every trailing period. -/
def rstripDots (s : List Char) : List Char :=
  (s.reverse.dropWhile (fun c => c = '.')).reverse

/-- Does one of the two split delimiters of
`re.split(r"\s+y\s+|,\s*", …)` match at the head?  If so, return the
remainder after the (greedy) delimiter.  The first alternative needs a
whitespace head, the second a comma, so at any position at most one
alternative can start and Python's ordered alternation is exact. -/
def delimAt (s : List Char) : Option (List Char) :=
  match s with
  | c :: rest =>
      if pySpace c then
        match rest.dropWhile pySpace with
        | 'y' :: r2 =>
            match r2 with
            | d :: _ => if pySpace d then some (r2.dropWhile pySpace) else none
            | [] => none
        | _ => none
      else if c = ',' then some (rest.dropWhile pySpace)
      else none
  | [] => none

/-- The `re.split` scan: try a delimiter at every position, left to right.
Fuel-driven (a delimiter consumes at least one character, so fuel
`s.length` never runs out; the fuel-exhausted arm is unreachable). -/
def splitGo : Nat → List Char → List Char → List (List Char)
  | 0, cur, s => [cur ++ s]
  | _ + 1, cur, [] => [cur]
  | f + 1, cur, c :: rest =>
      match delimAt (c :: rest) with
      | some r => cur :: splitGo f [] r
      | none => splitGo f (cur ++ [c]) rest

/-- Python `re.split(r"\s+y\s+|,\s*", s)`. -/
def pySplitDelims (s : List Char) : List (List Char) := splitGo s.length [] s

/-- Python `re.search(r"(\+[\d\s]+)", part)` — the leftmost `+` followed by at
least one digit/whitespace character, capturing the maximal run. -/
def phoneSearch : List Char → Option (List Char)
  | [] => none
  | '+' :: rest =>
      let run := rest.takeWhile (fun c => pyDigit c || pySpace c)
      if run.isEmpty then phoneSearch rest else some ('+' :: run)
  | _ :: rest => phoneSearch rest

/-- The per-segment step of `parse_added_users` (lines 68–74):
strip whitespace and U+200E, keep an embedded phone sub-pattern if one
exists, otherwise the segment itself if non-empty. -/
def partUser (part : List Char) : Option (List Char) :=
  let p := pyStripChars [lrm] (pyStripWs part)
  match phoneSearch p with
  | some ph => some (pyStripWs ph)
  | none => if p.isEmpty then none else some p

/-- Source `parse_added_users(text)` (lines 64–75). -/
def parse_added_users (text : List Char) : List (List Char) :=
  (pySplitDelims (rstripDots text)).filterMap partUser

/-! ### `LINE_RE` and `datetime.strptime` (lines 36, 96–106) -/

/-- The five numeric fields captured by `LINE_RE`'s first group. -/
structure Stamp where
  year : Nat
  month : Nat
  day : Nat
  hour : Nat
  minute : Nat
deriving Repr, DecidableEq

def digitsVal (ds : List Char) : Nat :=
  ds.foldl (fun n c => 10 * n + (c.toNat - 48)) 0

/-- Pattern `\d{1,2}` before a non-digit separator: take up to two digits
greedily (backtracking to one digit cannot help, since the follower is
`/` or `:`, not a digit). -/
def takeDigits12 (s : List Char) : Option (Nat × List Char) :=
  match s with
  | c1 :: c2 :: rest =>
      if pyDigit c1 then
        if pyDigit c2 then some (digitsVal [c1, c2], rest)
        else some (digitsVal [c1], c2 :: rest)
      else none
  | [c1] => if pyDigit c1 then some (digitsVal [c1], []) else none
  | [] => none

/-- Exactly `n` digits. -/
def takeDigitsExact : Nat → List Char → Option (List Char × List Char)
  | 0, s => some ([], s)
  | n + 1, c :: rest =>
      if pyDigit c then
        (takeDigitsExact n rest).map (fun p => (c :: p.1, p.2))
      else none
  | _ + 1, [] => none

def expectChar (c : Char) (s : List Char) : Option (List Char) :=
  match s with
  | d :: rest => if d = c then some rest else none
  | [] => none

/-- Source `LINE_RE.match(line)` (line 36):
`^(\d{1,2}/\d{1,2}/\d{4}, \d{1,2}:\d{2})\s*-\s*(.+)$`.  Returns the
numeric timestamp fields of group 1 and the `(.+)` message of group 2.
The trailing greedy `\s*` backtracks one character when everything
after `-` is whitespace, leaving the last character for `(.+)`. -/
def lineMatch (line : List Char) : Option (Stamp × List Char) := do
  let (d, r1) ← takeDigits12 line
  let r2 ← expectChar '/' r1
  let (m, r3) ← takeDigits12 r2
  let r4 ← expectChar '/' r3
  let (ys, r5) ← takeDigitsExact 4 r4
  let r6 ← matchLit ", ".data r5
  let (h, r7) ← takeDigits12 r6
  let r8 ← expectChar ':' r7
  let (mis, r9) ← takeDigitsExact 2 r8
  let r10 ← expectChar '-' (r9.dropWhile pySpace)
  let msg ←
    match r10.dropWhile pySpace with
    | [] =>
        match r10.reverse with
        | c :: _ => some [c]
        | [] => none
    | rest => some rest
  pure (⟨digitsVal ys, m, d, h, digitsVal mis⟩, msg)

def leapYear (y : Nat) : Bool := y % 4 = 0 && (y % 100 ≠ 0 || y % 400 = 0)

def daysInMonth (y m : Nat) : Nat :=
  if m = 2 then (if leapYear y then 29 else 28)
  else if m = 4 || m = 6 || m = 9 || m = 11 then 30
  else 31

/-- Python `datetime.strptime(ts, "%d/%m/%Y, %H:%M")` succeeds exactly when
the field values are in range (the captured string always has the
format's shape, so only the range checks of `%d`/`%m`/`%H`/`%M` and of
the `datetime` constructor can fail: day within the month, month 1–12,
year ≥ 1 — a 4-digit year is always ≤ 9999 —, hour ≤ 23, minute ≤ 59). -/
def validStamp (t : Stamp) : Bool :=
  1 ≤ t.year && 1 ≤ t.month && t.month ≤ 12 &&
  1 ≤ t.day && t.day ≤ daysInMonth t.year t.month &&
  t.hour ≤ 23 && t.minute ≤ 59

/-! ### Events and `parse_chat_file` (lines 78–150) -/

inductive EventType where
  | joined
  | left
  | added
deriving Repr, DecidableEq

/-- One extracted event: keys `timestamp`, `group_name`,
`user_phone_hash`, `event_type` of the dicts built in
`parse_chat_file`. -/
structure Event where
  stamp : Stamp
  gname : List Char
  uid : List Char
  ety : EventType
deriving Repr, DecidableEq

/-- The classification chain of lines 108–148: try `JOINED_RE`,
`LEFT_RE`, `ADDED_BY_ADMIN_RE`, `ADDED_BY_MEMBER_RE` in order; the
member pattern fans out over `parse_added_users`. -/
def processMessage (ident : List Char → List Char) (g : List Char)
    (t : Stamp) (msg : List Char) : List Event :=
  match joinedMatch msg with
  | some u => [⟨t, g, ident u, EventType.joined⟩]
  | none =>
    match leftMatch msg with
    | some u => [⟨t, g, ident u, EventType.left⟩]
    | none =>
      match adminMatch msg with
      | some u => [⟨t, g, ident u, EventType.added⟩]
      | none =>
        match memberMatch msg with
        | some p => (parse_added_users p.2).map (fun u => ⟨t, g, ident u, EventType.added⟩)
        | none => []

/-- One iteration of the `for line in f` loop (lines 94–148): no
timestamp prefix or an out-of-range timestamp yields no events. -/
def processLine (g : List Char) (ident : List Char → List Char)
    (line : List Char) : List Event :=
  match lineMatch line with
  | none => []
  | some (ts, msg) => if validStamp ts then processMessage ident g ts msg else []

/-- Source `parse_chat_file` over the file's (newline-stripped) lines, with
the group name precomputed from the filename. -/
def parse_chat_file (hashUsers : Bool) (gname : List Char) :
    List (List Char) → List Event
  | [] => []
  | l :: ls => processLine gname (identify hashUsers) l ++ parse_chat_file hashUsers gname ls

/-! ### The two sinks (lines 178–262) -/

/-- A stored flat-file row: the timestamp is persisted as its canonical
string form (`pd.to_datetime(...).astype(str)`). -/
structure StoredRow where
  ts : List Char
  gname : List Char
  uid : List Char
  ety : EventType
deriving Repr, DecidableEq

def digitChar (d : Nat) : Char := Char.ofNat (48 + d)

def natDigitsAux : Nat → Nat → List Char
  | 0, _ => []
  | f + 1, n => if n < 10 then [digitChar n] else natDigitsAux f (n / 10) ++ [digitChar (n % 10)]

def natDigits (n : Nat) : List Char := natDigitsAux (n + 1) n

def pad2 (n : Nat) : List Char := if n < 10 then '0' :: natDigits n else natDigits n

def pad4 (n : Nat) : List Char :=
  List.replicate (4 - (natDigits n).length) '0' ++ natDigits n

/-- Python `str(datetime(...))` / `pd.to_datetime(...).astype(str)` canonical
form: `YYYY-MM-DD HH:MM:SS` (seconds are always zero here). -/
def canonTs (t : Stamp) : List Char :=
  pad4 t.year ++ "-".data ++ pad2 t.month ++ "-".data ++ pad2 t.day ++
  " ".data ++ pad2 t.hour ++ ":".data ++ pad2 t.minute ++ ":00".data

def canonRow (e : Event) : StoredRow := ⟨canonTs e.stamp, e.gname, e.uid, e.ety⟩

/-- Pandas `DataFrame.drop_duplicates` over all four columns with the default
`keep="first"`: keep the first occurrence of each row, preserving
order. -/
def dedupKeepFirst (seen : List StoredRow) : List StoredRow → List StoredRow
  | [] => []
  | r :: rest =>
      if r ∈ seen then dedupKeepFirst seen rest
      else r :: dedupKeepFirst (r :: seen) rest

/-- Source `load_to_csv(df)` (lines 243–262) on a destination modelled as
`none` (file absent) or `some existing` (its rows).  Existing rows were
written by this same function, so their timestamp strings are already
canonical and `pd.to_datetime(...).astype(str)` is the identity on
them; on the incoming batch it is `canonRow`.  When the file exists the
concatenation `existing ++ batch` is deduplicated over the four-column
natural key (first occurrence wins); when it does not, the batch is
written as-is, with no deduplication, and `new_rows = len(combined)`.
Returns the new destination and the reported `new_rows`
(`len(combined) - len(existing)`, a possibly negative difference). -/
def load_to_csv (df : List Event) (dest : Option (List StoredRow)) :
    Option (List StoredRow) × Int :=
  match dest with
  | some existing =>
      let deduped := dedupKeepFirst [] (existing ++ df.map canonRow)
      (some deduped, (deduped.length : Int) - (existing.length : Int))
  | none =>
      let c := df.map canonRow
      (some c, (c.length : Int))

/-- The reported `skipped = len(df) - new_rows` (line 261). -/
def csvSkipped (df : List Event) (newRows : Int) : Int :=
  (df.length : Int) - newRows

/-- Source `load_to_postgres(df, engine)` (lines 193–240) on a destination
modelled as `none` (table absent) or `some rows`.  An empty batch
returns 0 before touching the database; otherwise `ensure_table`
creates the table if missing and the chunked
`INSERT ... ON CONFLICT (timestamp, group_name, user_phone_hash,
event_type) DO NOTHING` inserts the records in order, skipping any row
whose four-column key is already present (also when the duplicate was
inserted earlier in the same batch); the chunk boundaries only affect
progress printing.  Returns the new table and the accumulated count of
rows actually inserted. -/
def load_to_postgres (df : List Event) (db : Option (List Event)) :
    Option (List Event) × Nat :=
  if df.isEmpty then (db, 0)
  else
    let start := db.getD []
    let step := fun (acc : List Event × Nat) (e : Event) =>
      if e ∈ acc.1 then acc else (acc.1 ++ [e], acc.2 + 1)
    let r := df.foldl step (start, 0)
    (some r.1, r.2)

/-! ### Claim-side definitions -/

/-- Modelled from claim C5's words: remove all whitespace characters,
then strip one leading U+200E or U+200F directionality mark. -/
def claimNormalizeC5 (s : List Char) : List Char :=
  match s.filter (fun c => !pySpace c) with
  | c :: r => if c = lrm ∨ c = rlm then r else c :: r
  | [] => []

/-- The amended C5 normalisation: remove all whitespace characters,
then strip every leading and trailing U+200E (and only U+200E). -/
def claimNormalizeC5Amended (s : List Char) : List Char :=
  (((s.filter (fun c => !pySpace c)).dropWhile (fun c => c = lrm)).reverse.dropWhile
    (fun c => c = lrm)).reverse

/-- Remove exactly one trailing period, if present. -/
def stripOneDot (s : List Char) : List Char :=
  match s.reverse with
  | '.' :: r => r.reverse
  | _ => s

/-- Modelled from claim C6's words: the added-users splitter with
exactly one trailing period stripped and everything else unchanged. -/
def addedUsersOneDot (text : List Char) : List (List Char) :=
  (pySplitDelims (stripOneDot text)).filterMap partUser

/-- A non-empty run of whitespace characters. -/
def wsRun (w : List Char) : Prop := w ≠ [] ∧ ∀ c ∈ w, pySpace c = true

/-- Claim C10's subject-token shape: `+` followed by at least one
digit/whitespace character, or `~` followed by a whitespace character
and at least one further character. -/
def tokenShape (a : List Char) : Prop :=
  (∃ ds, a = '+' :: ds ∧ ds ≠ [] ∧ ∀ c ∈ ds, (pyDigit c || pySpace c) = true) ∨
  (∃ w rest, a = '~' :: w :: rest ∧ pySpace w = true ∧ rest ≠ [])

/-- A message that decomposes as a token-shaped actor, whitespace, the
literal `añadió a `, and a non-empty subjects text. -/
def memberCore (m : List Char) : Prop :=
  ∃ a w subj, tokenShape a ∧ wsRun w ∧ subj ≠ [] ∧ m = a ++ w ++ memberLit ++ subj

/-- Predicate `memberCore` up to the optional leading U+200E of
`ADDED_BY_MEMBER_RE`. -/
def memberShape (msg : List Char) : Prop :=
  memberCore msg ∨ ∃ m, msg = lrm :: m ∧ memberCore m

/-- A concrete parsed event used by the flat-file loader claims. -/
def evG : Event := ⟨⟨2023, 3, 15, 14, 22⟩, "G".data, "u".data, EventType.added⟩

/-- The stored image `canonRow evG` of `evG`. -/
def rowG : StoredRow :=
  ⟨"2023-03-15 14:22:00".data, "G".data, "u".data, EventType.added⟩


/-! ### Evaluation checks of the embedding on concrete inputs -/

example : normalizeId "+52 55 1234 5678".data = "+525512345678".data := by decide
example : normalizeId ("~\u202FCurrio").data = "~Currio".data := by decide
example : normalizeId ("\u200e+1 1\u200e").data = "+11".data := by decide
example : normalizeId ("\u200f+1 1").data = ("\u200f+11").data := by decide

set_option maxRecDepth 10000 in
example :
    sha256HexChars (utf8Encode "abc".data) =
    "ba7816bf8f01cfea414140de5dae2223b00361a396177a9cb410ff61f20015ad".data := by
  decide

set_option maxRecDepth 10000 in
example :
    sha256HexChars (utf8Encode "".data) =
    "e3b0c44298fc1c149afbf4c8996fb92427ae41e4649b934ca495991b7852b855".data := by
  decide

example : joinedMatch "+52 55 1234 5678 se unió con el enlace del grupo".data =
    some "+52 55 1234 5678".data := by decide
example : leftMatch ("\u200e~ Ana María salió del grupo").data =
    some "~ Ana María".data := by decide
example : adminMatch "Se añadió a ~Currio.".data = none := by decide
example : adminMatch ("Se añadió a ~\u202FCurrio.").data =
    some ("~\u202FCurrio").data := by decide
example : memberMatch "+1 234 añadió a +1 111, ~Bob y +1 222".data =
    some ("+1 234".data, "+1 111, ~Bob y +1 222".data) := by decide
example : memberMatch "+1 234 - añadió a +1 111".data = none := by decide
example : memberMatch "Juan añadió a +1 111".data = none := by decide

example : parse_added_users "+1 111, ~Bob y +1 222".data =
    ["+1 111".data, "~Bob".data, "+1 222".data] := by decide
example : parse_added_users "x..".data = ["x".data] := by decide
example : parse_added_users "María +52 55 1111 2222".data =
    ["+52 55 1111 2222".data] := by decide

example : lineMatch "15/3/2023, 14:22 - hola".data =
    some (⟨2023, 3, 15, 14, 22⟩, "hola".data) := by decide
example : lineMatch "hola como estas".data = none := by decide
example : validStamp ⟨2023, 2, 29, 10, 0⟩ = false := by decide

example : canonTs ⟨2023, 3, 15, 14, 22⟩ = "2023-03-15 14:22:00".data := by decide

example :
    load_to_csv [⟨⟨2023, 3, 15, 14, 22⟩, "G".data, "u".data, EventType.added⟩] none =
    (some [⟨"2023-03-15 14:22:00".data, "G".data, "u".data, EventType.added⟩], 1) := by
  decide

/-! ### Helper lemmas -/

theorem matchLit_sound {lit s r : List Char} (h : matchLit lit s = some r) :
    s = lit ++ r := by
  unfold matchLit at h
  split at h
  · next hp =>
      cases h
      obtain ⟨t, ht⟩ := List.isPrefixOf_iff_prefix.mp hp
      rw [← ht, List.drop_left]
  · exact Option.noConfusion h

theorem afterWsLit_sound {lit : List Char} {needRest : Bool} {r r2 : List Char}
    (h : afterWsLit lit needRest r = some r2) :
    ∃ w, wsRun w ∧ r = w ++ lit ++ r2 ∧ (needRest = true → r2 ≠ []) := by
  cases r with
  | nil => exact Option.noConfusion h
  | cons c t =>
      simp only [afterWsLit] at h
      by_cases hc : pySpace c = true
      · rw [if_pos hc] at h
        split at h
        · next r2' hm =>
            by_cases hne : (needRest && r2'.isEmpty) = true
            · rw [if_pos hne] at h; exact Option.noConfusion h
            · rw [if_neg hne] at h
              cases h
              refine ⟨c :: t.takeWhile pySpace, ⟨by simp, ?_⟩, ?_, ?_⟩
              · intro x hx
                rcases List.mem_cons.mp hx with hx | hx
                · exact hx ▸ hc
                · exact List.mem_takeWhile_imp hx
              · have hd := matchLit_sound hm
                calc c :: t
                    = c :: (t.takeWhile pySpace ++ t.dropWhile pySpace) := by
                      rw [List.takeWhile_append_dropWhile]
                  _ = c :: (t.takeWhile pySpace ++ (lit ++ r2)) := by rw [← hd]
                  _ = (c :: t.takeWhile pySpace) ++ lit ++ r2 := by simp
              · intro hr habs
                rw [hr, habs] at hne
                simp at hne
        · exact Option.noConfusion h
      · rw [if_neg hc] at h
        exact Option.noConfusion h

theorem scanPhone_sound {k : List Char → Option (List Char)} :
    ∀ {s acc cap r}, scanPhone k acc s = some (cap, r) →
    ∃ d s', d ≠ [] ∧ (∀ c ∈ d, (pyDigit c || pySpace c) = true) ∧
      cap = acc ++ d ∧ s = d ++ s' ∧ k s' = some r := by
  intro s
  induction s with
  | nil => intro acc cap r h; exact Option.noConfusion h
  | cons c rest ih =>
      intro acc cap r h
      simp only [scanPhone] at h
      by_cases hcls : (pyDigit c || pySpace c) = true
      · rw [if_pos hcls] at h
        cases hk : k rest with
        | some r' =>
            rw [hk] at h
            cases h
            refine ⟨[c], rest, by simp, ?_, rfl, rfl, hk⟩
            intro x hx
            rcases List.mem_singleton.mp hx with rfl
            exact hcls
        | none =>
            rw [hk] at h
            obtain ⟨d, s', hd, hcl, hcap, hs, hk'⟩ := ih h
            refine ⟨c :: d, s', by simp, ?_, ?_, ?_, hk'⟩
            · intro x hx
              rcases List.mem_cons.mp hx with rfl | hx
              · exact hcls
              · exact hcl x hx
            · rw [hcap]; simp
            · rw [hs]; rfl
      · rw [if_neg hcls] at h
        exact Option.noConfusion h

theorem scanAlias_sound {k : List Char → Option (List Char)} :
    ∀ {s acc cap r}, scanAlias k acc s = some (cap, r) →
    ∃ d s', d ≠ [] ∧ cap = acc ++ d ∧ s = d ++ s' ∧ k s' = some r := by
  intro s
  induction s with
  | nil => intro acc cap r h; exact Option.noConfusion h
  | cons c rest ih =>
      intro acc cap r h
      simp only [scanAlias] at h
      cases hk : k rest with
      | some r' =>
          rw [hk] at h
          cases h
          exact ⟨[c], rest, by simp, rfl, rfl, hk⟩
      | none =>
          rw [hk] at h
          obtain ⟨d, s', hd, hcap, hs, hk'⟩ := ih h
          refine ⟨c :: d, s', by simp, ?_, ?_, hk'⟩
          · rw [hcap]; simp
          · rw [hs]; rfl

theorem matchUser_sound {k : List Char → Option (List Char)}
    {s cap r : List Char} (h : matchUser k s = some (cap, r)) :
    tokenShape cap ∧ ∃ s', s = cap ++ s' ∧ k s' = some r := by
  cases s with
  | nil => exact Option.noConfusion h
  | cons c rest =>
      simp only [matchUser] at h
      by_cases hplus : c = '+'
      · rw [if_pos hplus] at h
        cases hsp : scanPhone k ([] : List Char) rest with
        | none => rw [hsp] at h; exact Option.noConfusion h
        | some p =>
            rw [hsp, Option.map_some'] at h
            cases h
            obtain ⟨d, s', hd, hcl, hcap, hs, hk⟩ := scanPhone_sound hsp
            have hp1 : p.1 = d := by simpa using hcap
            refine ⟨Or.inl ⟨d, by rw [hp1], hd, hcl⟩, s', ?_, hk⟩
            rw [hplus, hs, hp1]; rfl
      · rw [if_neg hplus] at h
        by_cases htilde : c = '~'
        · rw [if_pos htilde] at h
          split at h
          · exact Option.noConfusion h
          · next c2 rest2 =>
              by_cases hsp2 : pySpace c2 = true
              · rw [if_pos hsp2] at h
                cases hsa : scanAlias k ([] : List Char) rest2 with
                | none => rw [hsa] at h; exact Option.noConfusion h
                | some p =>
                    rw [hsa, Option.map_some'] at h
                    cases h
                    obtain ⟨d, s', hd, hcap, hs, hk⟩ := scanAlias_sound hsa
                    have hp1 : p.1 = d := by simpa using hcap
                    refine ⟨Or.inr ⟨c2, d, by rw [hp1], hsp2, hd⟩, s', ?_, hk⟩
                    rw [htilde, hs, hp1]; rfl
              · rw [if_neg hsp2] at h
                exact Option.noConfusion h
        · rw [if_neg htilde] at h
          exact Option.noConfusion h

theorem memberCore_of_match {m a subj : List Char}
    (h : matchUser (afterWsLit memberLit true) m = some (a, subj)) :
    memberCore m := by
  obtain ⟨hts, s', hs, hk⟩ := matchUser_sound h
  obtain ⟨w, hw, hdecomp, hne⟩ := afterWsLit_sound hk
  refine ⟨a, w, subj, hts, hw, hne rfl, ?_⟩
  rw [hs, hdecomp]
  simp

theorem memberMatch_sound {msg a subj : List Char}
    (h : memberMatch msg = some (a, subj)) : memberShape msg := by
  cases msg with
  | nil =>
      unfold memberMatch at h
      have hd : drop200e ([] : List Char) = [] := rfl
      rw [hd] at h
      exact Or.inl (memberCore_of_match h)
  | cons c rest =>
      by_cases hc : c = lrm
      · have hd : drop200e (c :: rest) = rest := by simp [drop200e, hc]
        unfold memberMatch at h
        rw [hd] at h
        exact Or.inr ⟨rest, by rw [hc], memberCore_of_match h⟩
      · have hd : drop200e (c :: rest) = c :: rest := by simp [drop200e, hc]
        unfold memberMatch at h
        rw [hd] at h
        exact Or.inl (memberCore_of_match h)

theorem memberCore_head {m : List Char} (h : memberCore m) :
    m.head? = some '+' ∨ m.head? = some '~' := by
  obtain ⟨a, w, subj, hts, _, _, heq⟩ := h
  rcases hts with ⟨ds, ha, _, _⟩ | ⟨w2, rest, ha, _, _⟩
  · left; rw [heq, ha]; rfl
  · right; rw [heq, ha]; rfl

theorem memberShape_head {msg : List Char} (h : memberShape msg) :
    msg.head? = some lrm ∨ msg.head? = some '+' ∨ msg.head? = some '~' := by
  rcases h with h | ⟨m, hm, _⟩
  · exact Or.inr (memberCore_head h)
  · left; rw [hm]; rfl

theorem dedupKeepFirst_eq_self :
    ∀ (l seen : List StoredRow), l.Nodup → (∀ a ∈ l, a ∉ seen) →
    dedupKeepFirst seen l = l := by
  intro l
  induction l with
  | nil => intro seen _ _; rfl
  | cons r rest ih =>
      intro seen hnd hdis
      unfold dedupKeepFirst
      rw [if_neg (hdis r (List.mem_cons_self r rest))]
      rw [ih (r :: seen) (List.Nodup.of_cons hnd)]
      intro a ha hmem
      rcases List.mem_cons.mp hmem with rfl | hmem
      · exact (List.nodup_cons.mp hnd).1 ha
      · exact hdis a (List.mem_cons_of_mem r ha) hmem

theorem parse_chat_file_append (hu : Bool) (g : List Char)
    (l1 l2 : List (List Char)) :
    parse_chat_file hu g (l1 ++ l2) =
    parse_chat_file hu g l1 ++ parse_chat_file hu g l2 := by
  induction l1 with
  | nil => rfl
  | cons l ls ih => simp [parse_chat_file, ih]

theorem rstripDots_append_dot (t : List Char) :
    rstripDots (t ++ ['.']) = rstripDots t := by
  unfold rstripDots
  rw [List.reverse_append]
  simp

/-! ### Claim theorems -/

/-- C1: the claimed key-uniqueness invariant fails on the code (code
bug).  `load_to_csv` deduplicates only when the destination file
already exists (lines 247–253); the first load into a non-existent
destination (lines 255–258) writes the batch as-is, so a batch
containing duplicate events — which the parser can legitimately emit —
leaves the destination with two rows sharing the same
(timestamp, group_name, subject_id, event_type) tuple, contradicting
the invariant and the function's own docstring
("merging with existing data and deduplicating"). -/
theorem c1_csv_first_load_keeps_duplicate_rows :
    load_to_csv [evG, evG] none = (some [rowG, rowG], 2) ∧
    ¬ ([rowG, rowG] : List StoredRow).Nodup := by
  exact ⟨by decide, by decide⟩

/-- C2: dedup idempotence fails on the code (code bug, same missing
deduplication as C1).  For the batch B = [evG, evG] the first load
into a missing destination stores 2 rows and reports 2 new; reloading
the same B collapses everything to 1 row and reports −1 new rows and
3 skipped — not the claimed unchanged row count, 0 new and
`len(B) = 2` skipped. -/
theorem c2_csv_reload_shrinks_on_duplicate_batch :
    load_to_csv [evG, evG] none = (some [rowG, rowG], 2) ∧
    load_to_csv [evG, evG] (some [rowG, rowG]) = (some [rowG], -1) ∧
    csvSkipped [evG, evG] (-1) = 3 := by
  exact ⟨by decide, by decide, by decide⟩

/-- C3 counterexample: `load_to_csv` has no empty-batch guard; loading
an empty batch when the destination file does not exist creates an
empty (header-only) destination instead of leaving it absent — not a
no-op that leaves the destination unchanged. -/
theorem c3_counterexample_empty_load_creates_destination :
    load_to_csv [] none = (some [], 0) ∧
    (some ([] : List StoredRow)) ≠ none := by
  exact ⟨by decide, by decide⟩

/-- C3 (amended): `load_to_postgres` tolerates an empty batch as a full
no-op reporting zero inserted, whatever the destination state (it
returns before `ensure_table`); `load_to_csv` on an empty batch reports
zero new rows and leaves the stored rows unchanged whenever the
destination exists and is key-unique — but a missing destination gets
created as an empty file (see the counterexample). -/
theorem c3_empty_batch_tolerated_amended :
    (∀ db, load_to_postgres [] db = (db, 0)) ∧
    (∀ ex : List StoredRow, ex.Nodup → load_to_csv [] (some ex) = (some ex, 0)) := by
  constructor
  · intro db; rfl
  · intro ex hnd
    simp only [load_to_csv, List.map_nil, List.append_nil]
    rw [dedupKeepFirst_eq_self ex [] hnd (by intro a _ hmem; exact (List.not_mem_nil a) hmem)]
    simp

/-- Witness for the amended C3 at a concrete one-row destination. -/
theorem c3_empty_batch_tolerated_amended_witness :
    ([rowG] : List StoredRow).Nodup ∧
    load_to_postgres [] (some [evG]) = (some [evG], 0) ∧
    load_to_csv [] (some [rowG]) = (some [rowG], 0) :=
  ⟨by decide, c3_empty_batch_tolerated_amended.1 (some [evG]),
   c3_empty_batch_tolerated_amended.2 [rowG] (by decide)⟩

/-- C4 counterexample: in the message `Se añadió a ~Currio.` the alias
has no whitespace after the sigil, so `_USER_RE`'s alias branch
`~[\s\u202F].+?` cannot match and the line is classified as no event —
not as one `added` event as claimed. -/
theorem c4_counterexample_alias_without_space_no_event :
    processMessage normalizeId "G".data ⟨2023, 3, 15, 14, 22⟩
      "Se añadió a ~Currio.".data = [] := by
  decide

/-- C4 (amended): with a whitespace character after the sigil — the
narrow no-break space U+202F that the exports actually contain — the
message `Se añadió a ~\u202FCurrio.` produces exactly one `added`
event; the trailing period stays outside the capture and the subject
normalises to `~Currio`. -/
theorem c4_amended_alias_with_nnbsp_one_added_event :
    processMessage normalizeId "G".data ⟨2023, 3, 15, 14, 22⟩
      "Se añadió a ~\u202FCurrio.".data =
    [⟨⟨2023, 3, 15, 14, 22⟩, "G".data, "~Currio".data, EventType.added⟩] := by
  decide

/-- C5 counterexample: the code's normalisation is
`re.sub(r"\s+", "", x).strip(chr 0x200e)`; it never strips the
right-to-left mark U+200F, which the claim says is stripped. -/
theorem c5_counterexample_rlm_not_stripped :
    normalizeId "\u200F+1 2".data ≠ claimNormalizeC5 "\u200F+1 2".data ∧
    normalizeId "\u200F+1 2".data = "\u200F+12".data ∧
    claimNormalizeC5 "\u200F+1 2".data = "+12".data := by
  exact ⟨by decide, by decide, by decide⟩

/-- C5 (amended): for every raw identifier, all whitespace characters
are removed (including U+202F, which is in the whitespace class) and
then every leading and trailing U+200E mark is stripped; U+200F is not
touched. -/
theorem c5_amended_normalization (s : List Char) :
    normalizeId s = claimNormalizeC5Amended s := by
  unfold normalizeId pyStripChars pySubWs claimNormalizeC5Amended
  simp only [List.mem_singleton]

/-- C6 counterexample: `parse_added_users` uses `text.rstrip(".")`,
which removes *all* trailing periods; on `x..` the code returns `[x]`
while the claimed strip-exactly-one behaviour would keep one period as
content and return `[x.]`. -/
theorem c6_counterexample_double_period :
    parse_added_users "x..".data = ["x".data] ∧
    addedUsersOneDot "x..".data = ["x.".data] ∧
    parse_added_users "x..".data ≠ addedUsersOneDot "x..".data := by
  exact ⟨by decide, by decide, by decide⟩

/-- C6 (amended): the splitter strips *all* trailing periods.
Appending one trailing period therefore never changes the result —
that part of the claim holds — but a text ending in two periods keeps
neither of them. -/
theorem c6_amended_trailing_periods :
    (∀ t : List Char, parse_added_users (t ++ ['.']) = parse_added_users t) ∧
    parse_added_users "x..".data = ["x".data] := by
  constructor
  · intro t
    unfold parse_added_users
    rw [rstripDots_append_dot]
  · decide

/-- C7 counterexample: the literal line of the claim,
`+1 234 - añadió a +1 111, ~Bob y +1 222`, yields zero events: as a
transcript line it has no timestamp, and even as the message of a
timestamped line the ` - ` after the actor is outside `[\d\s]`, so
`ADDED_BY_MEMBER_RE` cannot match. -/
theorem c7_counterexample_literal_line_zero_events :
    processLine "G".data normalizeId
      "+1 234 - añadió a +1 111, ~Bob y +1 222".data = [] ∧
    processMessage normalizeId "G".data ⟨2023, 3, 15, 14, 22⟩
      "+1 234 - añadió a +1 111, ~Bob y +1 222".data = [] := by
  exact ⟨by decide, by decide⟩

/-- C7 (amended): the timestamped line
`15/3/2023, 14:22 - +1 234 añadió a +1 111, ~Bob y +1 222` (no stray
dash after the actor) yields exactly three `added` events whose
subjects normalise to `+1111`, `~Bob`, `+1222`, in order of
appearance, with the actor `+1 234` discarded. -/
theorem c7_amended_three_added_events :
    processLine "G".data normalizeId
      "15/3/2023, 14:22 - +1 234 añadió a +1 111, ~Bob y +1 222".data =
    [⟨⟨2023, 3, 15, 14, 22⟩, "G".data, "+1111".data, EventType.added⟩,
     ⟨⟨2023, 3, 15, 14, 22⟩, "G".data, "~Bob".data, EventType.added⟩,
     ⟨⟨2023, 3, 15, 14, 22⟩, "G".data, "+1222".data, EventType.added⟩] := by
  decide

/-- C8: confirmed — parsing is total over line content.  A line that
fails the timestamp pattern, or whose timestamp fields are out of
range (`strptime` raises `ValueError`, caught at lines 103–106), or
whose message matches none of the four event patterns, contributes no
events and never aborts the parse: removing it from the transcript
leaves the result unchanged.  (The embedding is a total function, so
no exception can escape; the only fatal condition, an unreadable file,
lies outside the line-content model.) -/
theorem c8_malformed_lines_ignored (hu : Bool) (g : List Char)
    (pre post : List (List Char)) (line : List Char)
    (hbad : lineMatch line = none ∨
      (∃ ts msg, lineMatch line = some (ts, msg) ∧ validStamp ts = false) ∨
      (∃ ts msg, lineMatch line = some (ts, msg) ∧ validStamp ts = true ∧
        joinedMatch msg = none ∧ leftMatch msg = none ∧
        adminMatch msg = none ∧ memberMatch msg = none)) :
    parse_chat_file hu g (pre ++ line :: post) =
    parse_chat_file hu g (pre ++ post) := by
  have hline : processLine g (identify hu) line = [] := by
    rcases hbad with h | ⟨ts, msg, hl, hv⟩ | ⟨ts, msg, hl, hv, hj, hlf, ha, hm⟩
    · simp only [processLine, h]
    · simp only [processLine, hl, hv]
      simp
    · simp only [processLine, hl, hv, if_true]
      simp only [processMessage, hj, hlf, ha, hm]
  rw [parse_chat_file_append, parse_chat_file_append]
  simp [parse_chat_file, hline]

/-- Witness for C8: a plain continuation line with no timestamp. -/
theorem c8_malformed_lines_ignored_witness :
    lineMatch "hola como estas".data = none ∧
    parse_chat_file true "G".data ([] ++ "hola como estas".data :: []) =
      parse_chat_file true "G".data ([] ++ []) :=
  ⟨by decide,
   c8_malformed_lines_ignored true "G".data [] [] "hola como estas".data
     (Or.inl (by decide))⟩

/-- C9: confirmed — with anonymisation on, `identify` is `hash_phone`:
the first 16 hex characters of the SHA-256 digest of the UTF-8 bytes
of the normalised identifier (the SHA-256 embedding is validated
against the FIPS 180 test vectors below); with anonymisation off it is
the normalised identifier unchanged.  Both are pure functions of the
input and mode, so determinism in (input, mode) is immediate. -/
theorem c9_identify_hash_and_plain (raw : List Char) :
    identify true raw = (sha256HexChars (utf8Encode (normalizeId raw))).take 16 ∧
    identify false raw = normalizeId raw :=
  ⟨rfl, rfl⟩

/-- C10 counterexample: the claim's universal fails for the
added-by-admin form. The message `Se añadió a +1 234` has the
non-token text `Se` before ` añadió a `, yet its line is classified as
one `added` event (via `ADDED_BY_ADMIN_RE`), not as no event. -/
theorem c10_counterexample_admin_line_emits_event :
    ¬ memberShape "Se añadió a +1 234".data ∧
    processLine "G".data normalizeId
      "15/3/2023, 14:22 - Se añadió a +1 234".data =
    [⟨⟨2023, 3, 15, 14, 22⟩, "G".data, "+1234".data, EventType.added⟩] := by
  constructor
  · intro h
    rcases memberShape_head h with h1 | h1 | h1 <;> exact absurd h1 (by decide)
  · decide

/-- C10 (amended): restricted to messages that do not match the other
three patterns, the implicit claim holds — `ADDED_BY_MEMBER_RE` can
only fire when the message decomposes (after an optional leading
U+200E) as a token-shaped actor (`+` digits/whitespace, or `~` plus a
whitespace character and more text), whitespace, the literal
`añadió a `, and a non-empty subjects text; any line whose message
admits no such decomposition yields zero events. -/
theorem c10_amended_nonsubject_actor_no_events (g : List Char)
    (ident : List Char → List Char) (line : List Char) (ts : Stamp)
    (msg : List Char) (hl : lineMatch line = some (ts, msg))
    (hj : joinedMatch msg = none) (hlf : leftMatch msg = none)
    (ha : adminMatch msg = none) (hshape : ¬ memberShape msg) :
    processLine g ident line = [] := by
  have hm : memberMatch msg = none := by
    cases hmm : memberMatch msg with
    | none => rfl
    | some p =>
        obtain ⟨a, subj⟩ := p
        exact absurd (memberMatch_sound hmm) hshape
  simp only [processLine, hl]
  by_cases hv : validStamp ts = true
  · rw [if_pos hv]
    simp only [processMessage, hj, hlf, ha, hm]
  · rw [if_neg hv]

/-- Witness for the amended C10: a bare display name as actor. -/
theorem c10_amended_nonsubject_actor_no_events_witness :
    ¬ memberShape "Juan añadió a +1 111".data ∧
    processLine "G".data normalizeId
      "15/3/2023, 14:22 - Juan añadió a +1 111".data = [] := by
  have hsh : ¬ memberShape "Juan añadió a +1 111".data := by
    intro h
    rcases memberShape_head h with h1 | h1 | h1 <;> exact absurd h1 (by decide)
  exact ⟨hsh,
    c10_amended_nonsubject_actor_no_events "G".data normalizeId
      "15/3/2023, 14:22 - Juan añadió a +1 111".data
      ⟨2023, 3, 15, 14, 22⟩ "Juan añadió a +1 111".data
      (by decide) (by decide) (by decide) (by decide) hsh⟩

/-! ### Additional evaluation checks: the loaders on key-distinct batches -/

example :
    load_to_csv
      [⟨⟨2023, 3, 15, 14, 22⟩, "G".data, "a".data, EventType.added⟩,
       ⟨⟨2023, 3, 15, 14, 22⟩, "G".data, "b".data, EventType.joined⟩,
       ⟨⟨2023, 3, 15, 14, 23⟩, "G".data, "c".data, EventType.left⟩] none =
    (some [⟨"2023-03-15 14:22:00".data, "G".data, "a".data, EventType.added⟩,
           ⟨"2023-03-15 14:22:00".data, "G".data, "b".data, EventType.joined⟩,
           ⟨"2023-03-15 14:23:00".data, "G".data, "c".data, EventType.left⟩], 3) := by
  decide

example :
    load_to_csv
      [⟨⟨2023, 3, 15, 14, 22⟩, "G".data, "a".data, EventType.added⟩,
       ⟨⟨2023, 3, 15, 14, 22⟩, "G".data, "b".data, EventType.joined⟩,
       ⟨⟨2023, 3, 15, 14, 23⟩, "G".data, "c".data, EventType.left⟩]
      (some [⟨"2023-03-15 14:22:00".data, "G".data, "a".data, EventType.added⟩,
             ⟨"2023-03-15 14:22:00".data, "G".data, "b".data, EventType.joined⟩,
             ⟨"2023-03-15 14:23:00".data, "G".data, "c".data, EventType.left⟩]) =
    (some [⟨"2023-03-15 14:22:00".data, "G".data, "a".data, EventType.added⟩,
           ⟨"2023-03-15 14:22:00".data, "G".data, "b".data, EventType.joined⟩,
           ⟨"2023-03-15 14:23:00".data, "G".data, "c".data, EventType.left⟩], 0) := by
  decide

example : load_to_postgres [evG, evG] none = (some [evG], 1) := by decide
